import Mathlib

/-!
Shallow embedding of the connection-admission core of the code-server
remote-development session server.

Sources embedded here:
* `src/server.ts` (`Server` HTTP handler, `MainServer.connect` admission
  algorithm and its two-level connection table);
* `src/connection.ts` (`Connection`, `ManagementConnection`,
  `ExtensionHostConnection` state machines).

JavaScript `Map` objects are modelled as association lists, mutation as
explicit state passing, and event-handler callbacks as step functions on an
explicit state together with a list of emitted observable effects.
-/

namespace CodeServer

/-! ## JavaScript `Map` model -/

/-- JS `Map.get`: the binding of the first matching key, if any. -/
def mapGet {α β : Type} [DecidableEq α] (m : List (α × β)) (k : α) : Option β :=
  match m with
  | [] => none
  | p :: rest => if p.1 = k then some p.2 else mapGet rest k

/-- JS `Map.has`. -/
def mapHas {α β : Type} [DecidableEq α] (m : List (α × β)) (k : α) : Bool :=
  (mapGet m k).isSome

/-- JS `Map.set`: replace the binding in place if the key is present,
otherwise append a new binding. -/
def mapSet {α β : Type} [DecidableEq α] (m : List (α × β)) (k : α) (v : β) :
    List (α × β) :=
  if mapHas m k then m.map (fun p => if p.1 = k then (k, v) else p)
  else m ++ [(k, v)]

/-- JS `Map.delete`. -/
def mapDelete {α β : Type} [DecidableEq α] (m : List (α × β)) (k : α) :
    List (α × β) :=
  m.filter (fun p => decide (p.1 ≠ k))

/-! ## Base64 (Node `Buffer.toString("base64")`, RFC 4648 with padding) -/

def base64Chars : List Char :=
  ("ABCDEFGHIJKLMNOPQRSTUVWXYZabcdefghijklmnopqrstuvwxyz0123456789+/").toList

def base64Digit (n : Nat) : Char := base64Chars.getD n ('=')

def base64Quads (bs : List Nat) : List Char :=
  match bs with
  | [] => []
  | [b1] =>
      [base64Digit (b1 / 4), base64Digit (b1 % 4 * 16), '=', '=']
  | [b1, b2] =>
      [base64Digit (b1 / 4), base64Digit (b1 % 4 * 16 + b2 / 16),
       base64Digit (b2 % 16 * 4), '=']
  | b1 :: b2 :: b3 :: rest =>
      base64Digit (b1 / 4) :: base64Digit (b1 % 4 * 16 + b2 / 16) ::
        base64Digit (b2 % 16 * 4 + b3 / 64) :: base64Digit (b3 % 64) ::
        base64Quads rest

/-- Bytes (as naturals below 256) to their base64 string. -/
def base64Encode (bs : List Nat) : String := (base64Quads bs).asString

/-! ## `Server` HTTP request handler (`src/server.ts` lines 88-122) -/

def HttpCode.Ok : Nat := 200
def HttpCode.NotFound : Nat := 404
def HttpCode.BadRequest : Nat := 400

/-- A thrown JS error as observed by the catch clause: a message, an
optional numeric `code` (as set by `HttpError`), and an optional
filesystem error code string such as ENOENT. -/
structure JsError where
  message : String
  code : Option Nat
  fsCode : Option String
deriving DecidableEq

/-- The catch clause of the request handler: ENOENT/EISDIR become a 404
`HttpError`, the response status is the numeric `error.code` if present
(500 otherwise) and the body is `error.message`. -/
def catchClause (e : JsError) : Nat × String :=
  let e1 := if e.fsCode = some ("ENOENT") ∨ e.fsCode = some ("EISDIR")
    then { message := ("Not found"), code := some HttpCode.NotFound,
           fsCode := none }
    else e
  (e1.code.getD 500, e1.message)

/-- Observable outcome of one plain HTTP request: response status and body,
plus whether the URL was parsed and whether `handleRequest` ran. -/
structure HttpOutcome where
  status : Nat
  body : String
  parsedUrl : Bool
  handlerInvoked : Bool
deriving DecidableEq

/-- The `http.createServer` callback: a non-GET method throws
`HttpError("Unsupported method " + method, BadRequest)` before the URL is
parsed; otherwise the URL is parsed and `handleRequest` runs, its result
(or thrown error) determining the response.  The parsing-plus-handling
stage is abstracted as the `handler` argument. -/
def serverHandleRequest (method : String)
    (handler : Except JsError (Option Nat × String)) : HttpOutcome :=
  if method ≠ ("GET") then
    let r := catchClause
      { message := ("Unsupported method ") ++ method,
        code := some HttpCode.BadRequest, fsCode := none }
    { status := r.1, body := r.2, parsedUrl := false, handlerInvoked := false }
  else
    match handler with
    | Except.ok (code, content) =>
        { status := code.getD HttpCode.Ok, body := content,
          parsedUrl := true, handlerInvoked := true }
    | Except.error e =>
        let r := catchClause e
        { status := r.1, body := r.2, parsedUrl := true, handlerInvoked := true }

/-! ## `ManagementConnection` (`src/connection.ts` lines 35-63)

The connection is modelled as a state: the `disposed` flag and the
`timeout` field of the class, plus bookkeeping that makes JS timers
explicit: `pendingTimers` is the list of timers that have been created by
`setTimeout` and neither cleared nor fired, and `nextTimer` is a fresh
timer id source. -/

structure ManagementConnection where
  disposed : Bool
  timeout : Option Nat
  pendingTimers : List Nat
  nextTimer : Nat
deriving DecidableEq

/-- `this.wait = 1000 * 60` (milliseconds). -/
def mgmtWait : Nat := 1000 * 60

inductive MgmtEffect
  | clearTimeout (t : Option Nat)
  | setTimeout (id : Nat) (delay : Nat)
  | sendDisconnect
  | protocolDispose
  | socketEnd
  | fireOnClose
  | beginAcceptReconnection (sock : Nat) (buffer : List Nat)
  | endAcceptReconnection
deriving DecidableEq

/-- JS `clearTimeout(t)`: the timer, if it is still pending, never fires. -/
def clearPending (t : Option Nat) (pending : List Nat) : List Nat :=
  match t with
  | none => pending
  | some id => pending.erase id

/-- `ManagementConnection.dispose`: guarded by the `disposed` flag; clears
the timer, sends the disconnect notice, disposes the protocol, ends the
socket and fires `onClose`. -/
def ManagementConnection.dispose (c : ManagementConnection) :
    ManagementConnection × List MgmtEffect :=
  if c.disposed then (c, [])
  else
    ({ c with
        disposed := true
        pendingTimers := clearPending c.timeout c.pendingTimers },
     [MgmtEffect.clearTimeout c.timeout, MgmtEffect.sendDisconnect,
      MgmtEffect.protocolDispose, MgmtEffect.socketEnd,
      MgmtEffect.fireOnClose])

/-- The events a `ManagementConnection` reacts to: the `onSocketClose` and
`onClose` protocol events wired in the constructor, the firing of a timer
created by the socket-close handler, and a `reconnect` call. -/
inductive MgmtEvent
  | socketClose
  | protocolClose
  | timerFire (id : Nat)
  | reconnect (sock : Nat) (buffer : List Nat)
deriving DecidableEq

def ManagementConnection.stepEv (c : ManagementConnection) :
    MgmtEvent → ManagementConnection × List MgmtEffect
  | MgmtEvent.socketClose =>
      ({ c with
          timeout := some c.nextTimer
          pendingTimers := c.pendingTimers ++ [c.nextTimer]
          nextTimer := c.nextTimer + 1 },
       [MgmtEffect.setTimeout c.nextTimer mgmtWait])
  | MgmtEvent.protocolClose => c.dispose
  | MgmtEvent.timerFire id =>
      if id ∈ c.pendingTimers then
        ManagementConnection.dispose
          { c with pendingTimers := c.pendingTimers.erase id }
      else (c, [])
  | MgmtEvent.reconnect sock buffer =>
      ({ c with pendingTimers := clearPending c.timeout c.pendingTimers },
       [MgmtEffect.clearTimeout c.timeout,
        MgmtEffect.beginAcceptReconnection sock buffer,
        MgmtEffect.endAcceptReconnection])

/-- State of a freshly constructed `ManagementConnection`. -/
def mgmtStart : ManagementConnection :=
  { disposed := false, timeout := none, pendingTimers := [], nextTimer := 0 }

def ManagementConnection.run (c : ManagementConnection) :
    List MgmtEvent → ManagementConnection × List MgmtEffect
  | [] => (c, [])
  | e :: rest =>
      let s1 := c.stepEv e
      let s2 := s1.1.run rest
      (s2.1, s1.2 ++ s2.2)

/-! ## `ExtensionHostConnection` (`src/connection.ts` lines 68-156) -/

/-- Modelled from the spec: the Protocol wrapper consumed by
`ExtensionHostConnection` (the `Protocol` class itself is outside
`src/`), reduced to the two observations the class makes of it:
`getUnderlyingSocket()` (a raw socket handle) and whether `getSocket()`
is a `NodeSocket` (raw framing) rather than a web-socket wrapper. -/
structure EHCProtocol where
  underlyingSocket : Nat
  socketIsNodeSocket : Bool
deriving DecidableEq

/-- `IExtHostSocketMessage`: the init message sent to the child process. -/
structure IExtHostSocketMessage where
  type : String
  initialDataChunk : String
  skipWebSocketFrames : Bool
deriving DecidableEq

structure ExtensionHostConnection where
  disposed : Bool
  protocol : EHCProtocol
  buffer : List Nat
  processId : Nat
  readyListenerAttached : Bool
deriving DecidableEq

inductive EHCEffect
  | protocolDispose
  | spawnProcess (pid : Nat)
  | killProcess (pid : Nat)
  | socketEnd
  | fireOnClose
  | removeReadyListener
  | socketPause (sock : Nat)
  | sendToProcess (msg : IExtHostSocketMessage) (sock : Nat)
  | beginAcceptReconnection (sock : Nat)
  | logConsole
deriving DecidableEq

/-- `sendInitMessage`: pause the underlying socket, then send the process
the `VSCODE_EXTHOST_IPC_SOCKET` message carrying the base64-encoded
buffered bytes and the framing flag, together with the socket handle. -/
def ExtensionHostConnection.sendInitMessage (c : ExtensionHostConnection)
    (buffer : List Nat) : List EHCEffect :=
  [EHCEffect.socketPause c.protocol.underlyingSocket,
   EHCEffect.sendToProcess
     { type := ("VSCODE_EXTHOST_IPC_SOCKET"),
       initialDataChunk := base64Encode buffer,
       skipWebSocketFrames := c.protocol.socketIsNodeSocket }
     c.protocol.underlyingSocket]

/-- The constructor: store the protocol, dispose it (its only purpose was
the handshake), and spawn the child process (`this.process = this.spawn`),
registering the ready listener. `pid` is the OS-assigned process id. -/
def ExtensionHostConnection.create (protocol : EHCProtocol)
    (buffer : List Nat) (pid : Nat) :
    ExtensionHostConnection × List EHCEffect :=
  ({ disposed := false, protocol := protocol, buffer := buffer,
     processId := pid, readyListenerAttached := true },
   [EHCEffect.protocolDispose, EHCEffect.spawnProcess pid])

/-- `ExtensionHostConnection.dispose`: guarded by the `disposed` flag;
kills the process, ends the socket and fires `onClose`. -/
def ExtensionHostConnection.dispose (c : ExtensionHostConnection) :
    ExtensionHostConnection × List EHCEffect :=
  if c.disposed then (c, [])
  else ({ c with disposed := true },
        [EHCEffect.killProcess c.processId, EHCEffect.socketEnd,
         EHCEffect.fireOnClose])

/-- Events an `ExtensionHostConnection` reacts to.  `socketClose` is a
transport-level disconnect, for which the class registers no handler.
`disposeCall` is an explicit call of `dispose`. -/
inductive EHCEvent
  | procMessage (mtype : String)
  | procError
  | procExit
  | disposeCall
  | socketClose
  | reconnect (sock : Nat) (isNodeSocket : Bool) (buffer : List Nat)
deriving DecidableEq

def ExtensionHostConnection.stepEv (c : ExtensionHostConnection) :
    EHCEvent → ExtensionHostConnection × List EHCEffect
  | EHCEvent.procMessage mtype =>
      let consoleEffects :=
        if mtype = ("__$console") then [EHCEffect.logConsole] else []
      if c.readyListenerAttached ∧ mtype = ("VSCODE_EXTHOST_IPC_READY") then
        ({ c with readyListenerAttached := false },
         consoleEffects ++ [EHCEffect.removeReadyListener] ++
           c.sendInitMessage c.buffer)
      else (c, consoleEffects)
  | EHCEvent.procError => c.dispose
  | EHCEvent.procExit => c.dispose
  | EHCEvent.disposeCall => c.dispose
  | EHCEvent.socketClose => (c, [])
  | EHCEvent.reconnect sock isNodeSocket buffer =>
      let c1 := { c with protocol :=
        { underlyingSocket := sock, socketIsNodeSocket := isNodeSocket } }
      (c1, [EHCEffect.beginAcceptReconnection sock,
            EHCEffect.protocolDispose] ++ c1.sendInitMessage buffer)

def ExtensionHostConnection.run (c : ExtensionHostConnection) :
    List EHCEvent → ExtensionHostConnection × List EHCEffect
  | [] => (c, [])
  | e :: rest =>
      let s1 := c.stepEv e
      let s2 := s1.1.run rest
      (s2.1, s1.2 ++ s2.2)

def EHCEvent.isDisposeTrigger : EHCEvent → Bool
  | EHCEvent.procError => true
  | EHCEvent.procExit => true
  | EHCEvent.disposeCall => true
  | _ => false

def EHCEffect.isSpawn : EHCEffect → Bool
  | EHCEffect.spawnProcess _ => true
  | _ => false

def EHCEffect.isKill : EHCEffect → Bool
  | EHCEffect.killProcess _ => true
  | _ => false

/-! ## `MainServer.connect` admission algorithm (`src/server.ts` 346-398) -/

inductive ConnectionType
  | Management
  | ExtensionHost
  | Tunnel
deriving DecidableEq

structure ProtocolOptions where
  reconnectionToken : String
  reconnection : Bool
  skipWebSocketFrames : Bool
deriving DecidableEq

/-- Modelled from the spec: the admission-time Protocol wrapper (the
`Protocol` class itself is outside `src/`), reduced to the raw socket it
wraps and its parsed upgrade options, which are the observations
`MainServer.connect` makes of it. -/
structure Protocol where
  sock : Nat
  options : ProtocolOptions
deriving DecidableEq

structure ConnectionTypeRequest where
  desiredConnectionType : ConnectionType
deriving DecidableEq

/-- Convenience constructor for concrete `Protocol` values. -/
def mkProtocol (sock : Nat) (token : String) (reconnection : Bool)
    (skipFrames : Bool) : Protocol :=
  { sock := sock
    options :=
      { reconnectionToken := token
        reconnection := reconnection
        skipWebSocketFrames := skipFrames } }

/-- Acknowledgement message: `{ type: "ok" }` for Management, `{}` or
`{ debugPort }` for ExtensionHost. -/
inductive AckMessage
  | okType
  | empty
  | withDebugPort (port : Nat)
deriving DecidableEq

/-- `getDebugPort` is unimplemented and always resolves to undefined. -/
def getDebugPort : Option Nat := none

/-- `const ok = type === ExtensionHost ? (debugPort ? {debugPort} : {}) :
{ type: "ok" }`. -/
def okMessage (ctype : ConnectionType) : AckMessage :=
  if ctype = ConnectionType.ExtensionHost then
    match getDebugPort with
    | some port => AckMessage.withDebugPort port
    | none => AckMessage.empty
  else AckMessage.okType

/-- Inner map of the connection table: reconnection token to the id of the
`Connection` object stored there. -/
abbrev InnerTable := List (String × Nat)

/-- `this.connections : Map<ConnectionType, Map<string, Connection>>`. -/
abbrev ConnTable := List (ConnectionType × InnerTable)

/-- Two-level lookup: the Connection stored under `(type, token)`. -/
def tableGet (tbl : ConnTable) (ctype : ConnectionType) (token : String) :
    Option Nat :=
  match mapGet tbl ctype with
  | none => none
  | some inner => mapGet inner token

/-- Lines 355-357: `if (!this.connections.has(type))
this.connections.set(type, new Map())`. -/
def ensureType (tbl : ConnTable) (ctype : ConnectionType) : ConnTable :=
  if mapHas tbl ctype then tbl else mapSet tbl ctype []

/-- Line 359: `const connections = this.connections.get(type)!`. -/
def innerOf (tbl : ConnTable) (ctype : ConnectionType) : InnerTable :=
  (mapGet (ensureType tbl ctype) ctype).getD []

/-- The first argument the admission code hands to
`existing.reconnect(...)`: the source passes the Protocol wrapper object
itself, not the raw socket it wraps. -/
inductive ReconnectArg
  | protocolWrapper (p : Protocol)
  | rawSocket (sock : Nat)
deriving DecidableEq

inductive ServerEffect
  | sendMessage (ack : AckMessage)
  | readEntireBuffer
  | protocolDispose
  | reconnectCall (connId : Nat) (arg : ReconnectArg) (buffer : List Nat)
  | newManagementConnection (connId : Nat)
  | fireClientConnect (connId : Nat)
  | newExtensionHostConnection (connId : Nat)
  | registerCloseHandler (ctype : ConnectionType) (token : String)
  | tunnel
deriving DecidableEq

/-- Result of one admission attempt: the thrown error message if any, the
connection table afterwards, the observable effects in order, and whether
a new Connection object was constructed.  `freshId` stands for the
identity of a Connection object allocated on the non-reconnecting path. -/
structure ConnectOutcome where
  thrown : Option String
  connections : ConnTable
  effects : List ServerEffect
  created : Bool
deriving DecidableEq

/-- The Management/ExtensionHost arm of the `switch` (lines 348-394). -/
def connectMgmtOrExt (ctype : ConnectionType) (protocol : Protocol)
    (buffered : List Nat) (tbl : ConnTable) (freshId : Nat) : ConnectOutcome :=
  let connections := innerOf tbl ctype
  let token := protocol.options.reconnectionToken
  if protocol.options.reconnection ∧ mapHas connections token then
    { thrown := none,
      connections := ensureType tbl ctype,
      effects := [ServerEffect.sendMessage (okMessage ctype),
        ServerEffect.readEntireBuffer, ServerEffect.protocolDispose,
        ServerEffect.reconnectCall ((mapGet connections token).getD 0)
          (ReconnectArg.protocolWrapper protocol) buffered],
      created := false }
  else if protocol.options.reconnection ∨ mapHas connections token then
    { thrown := some (if protocol.options.reconnection
        then ("Unrecognized reconnection token")
        else ("Duplicate reconnection token")),
      connections := ensureType tbl ctype,
      effects := [],
      created := false }
  else
    { thrown := none,
      connections := mapSet (ensureType tbl ctype) ctype
        (mapSet connections token freshId),
      effects := [ServerEffect.sendMessage (okMessage ctype)] ++
        (if ctype = ConnectionType.Management then
          [ServerEffect.newManagementConnection freshId,
           ServerEffect.fireClientConnect freshId]
        else [ServerEffect.newExtensionHostConnection freshId]) ++
        [ServerEffect.registerCloseHandler ctype token],
      created := true }

/-- `MainServer.connect(message, protocol)`.  `buffered` is what
`protocol.readEntireBuffer()` returns on the reconnection path. -/
def connect (message : ConnectionTypeRequest) (protocol : Protocol)
    (buffered : List Nat) (tbl : ConnTable) (freshId : Nat) : ConnectOutcome :=
  match message.desiredConnectionType with
  | ConnectionType.Management =>
      connectMgmtOrExt ConnectionType.Management protocol buffered tbl freshId
  | ConnectionType.ExtensionHost =>
      connectMgmtOrExt ConnectionType.ExtensionHost protocol buffered tbl freshId
  | ConnectionType.Tunnel =>
      { thrown := none, connections := tbl,
        effects := [ServerEffect.tunnel], created := false }

/-! ## The server as a transition system over admissions and close events -/

structure ServerState where
  connTable : ConnTable
  freshId : Nat
deriving DecidableEq

/-- A server-level event: an upgrade request reaching `connect`, or the
close handler registered at line 391 firing for `(ctype, token)` and
deleting that token from the inner map it closed over. -/
inductive ServerEvent
  | upgrade (message : ConnectionTypeRequest) (protocol : Protocol)
      (buffered : List Nat)
  | closeFired (ctype : ConnectionType) (token : String)
deriving DecidableEq

def ServerState.step (s : ServerState) :
    ServerEvent → ServerState × List ServerEffect
  | ServerEvent.upgrade message protocol buffered =>
      let o := connect message protocol buffered s.connTable s.freshId
      ({ connTable := o.connections,
         freshId := if o.created then s.freshId + 1 else s.freshId },
       o.effects)
  | ServerEvent.closeFired ctype token =>
      match mapGet s.connTable ctype with
      | none => (s, [])
      | some inner =>
          ({ s with connTable := mapSet s.connTable ctype (mapDelete inner token) },
           [])

def ServerState.run (s : ServerState) :
    List ServerEvent → ServerState × List ServerEffect
  | [] => (s, [])
  | e :: rest =>
      let s1 := s.step e
      let s2 := s1.1.run rest
      (s2.1, s1.2 ++ s2.2)

/-- The table starts empty. -/
def serverStart : ServerState := { connTable := [], freshId := 0 }

/-- Well-formedness of the two-level table: no duplicate type keys, and no
duplicate token keys within a type — the token-uniqueness invariant. -/
def tableWF (tbl : ConnTable) : Prop :=
  (tbl.map Prod.fst).Nodup ∧ ∀ p ∈ tbl, (p.2.map Prod.fst).Nodup

/-- Trace guard for the amended single-timer invariant: a socket-close
event only arrives while no grace timer is pending (the transport delivers
at most one socket-close per attached socket, and attaching needs a
reconnect, which cancels the timer). -/
def mgmtGuardOK (c : ManagementConnection) : MgmtEvent → Bool
  | MgmtEvent.socketClose => c.pendingTimers.isEmpty
  | _ => true

def mgmtGuarded (c : ManagementConnection) : List MgmtEvent → Bool
  | [] => true
  | e :: rest => mgmtGuardOK c e && mgmtGuarded ((c.stepEv e).1) rest

/-- At most one pending grace timer, and the `timeout` field tracks it. -/
def mgmtTimerInv (c : ManagementConnection) : Prop :=
  c.pendingTimers = [] ∨ ∃ t, c.pendingTimers = [t] ∧ c.timeout = some t

/-! ## Lemmas about the `Map` model -/

theorem mapHas_eq_isSome {α β : Type} [DecidableEq α] (m : List (α × β)) (k : α) :
    mapHas m k = (mapGet m k).isSome := rfl

theorem mapGet_append {α β : Type} [DecidableEq α] (m1 m2 : List (α × β)) (k : α) :
    mapGet (m1 ++ m2) k =
      match mapGet m1 k with
      | some v => some v
      | none => mapGet m2 k := by
  induction m1 with
  | nil => simp [mapGet]
  | cons p rest ih =>
      by_cases h : p.1 = k
      · simp [mapGet, h]
      · simp [mapGet, h, ih]

theorem mapGet_replace_self {α β : Type} [DecidableEq α] (m : List (α × β)) (k : α) (v : β) :
    mapGet (m.map (fun p => if p.1 = k then (k, v) else p)) k =
      if mapHas m k then some v else none := by
  induction m with
  | nil => simp [mapGet, mapHas]
  | cons p rest ih =>
      by_cases h : p.1 = k
      · simp [mapGet, mapHas, h]
      · simp [mapGet, mapHas, h, ih]

theorem mapGet_replace_ne {α β : Type} [DecidableEq α] (m : List (α × β)) (k k' : α) (v : β)
    (hne : k' ≠ k) :
    mapGet (m.map (fun p => if p.1 = k then (k, v) else p)) k' = mapGet m k' := by
  induction m with
  | nil => simp
  | cons p rest ih =>
      cases p with
      | mk a b =>
        by_cases h : a = k
        · subst h
          have h1 : ¬(a = k') := fun e => hne e.symm
          simp [mapGet, h1, ih]
        · by_cases h2 : a = k'
          · subst h2
            simp [mapGet, h]
          · simp [mapGet, h, h2, ih]

theorem mapGet_set_self {α β : Type} [DecidableEq α] (m : List (α × β)) (k : α) (v : β) :
    mapGet (mapSet m k v) k = some v := by
  cases hm : mapGet m k with
  | none =>
      have hh : mapHas m k = false := by simp [mapHas, hm]
      simp [mapSet, hh, mapGet_append, hm, mapGet]
  | some w =>
      have hh : mapHas m k = true := by simp [mapHas, hm]
      simp [mapSet, hh, mapGet_replace_self]

theorem mapGet_set_ne {α β : Type} [DecidableEq α] (m : List (α × β)) (k k' : α) (v : β)
    (hne : k' ≠ k) :
    mapGet (mapSet m k v) k' = mapGet m k' := by
  by_cases hh : mapHas m k = true
  · simp [mapSet, hh, mapGet_replace_ne m k k' v hne]
  · have hh' : mapHas m k = false := by
      cases hx : mapHas m k
      · rfl
      · exact absurd hx hh
    have h1 : ¬(k = k') := fun e => hne e.symm
    simp [mapSet, hh', mapGet_append]
    cases hg : mapGet m k' <;> simp [mapGet, h1, hg]

theorem mapGet_eq_none_iff {α β : Type} [DecidableEq α] (m : List (α × β)) (k : α) :
    mapGet m k = none ↔ k ∉ m.map Prod.fst := by
  induction m with
  | nil => simp [mapGet]
  | cons p rest ih =>
      by_cases h : p.1 = k
      · simp [mapGet, h]
      · simp [mapGet, h, ih, Ne.symm h]

theorem mapGet_mem {α β : Type} [DecidableEq α] {m : List (α × β)} {k : α} {v : β}
    (h : mapGet m k = some v) : (k, v) ∈ m := by
  induction m with
  | nil => simp [mapGet] at h
  | cons p rest ih =>
      by_cases hp : p.1 = k
      · rw [mapGet, if_pos hp] at h
        have hv : p.2 = v := Option.some.inj h
        have hpq : p = (k, v) := by
          cases p with
          | mk a b => simp at hp hv; rw [hp, hv]
        exact hpq ▸ List.mem_cons_self p rest
      · rw [mapGet, if_neg hp] at h
        exact List.mem_cons_of_mem _ (ih h)

theorem replace_keys {α β : Type} [DecidableEq α] (m : List (α × β)) (k : α) (v : β) :
    (m.map (fun p => if p.1 = k then (k, v) else p)).map Prod.fst = m.map Prod.fst := by
  induction m with
  | nil => rfl
  | cons p rest ih =>
      by_cases h : p.1 = k <;> simp [h, ih]

theorem mapSet_keys_nodup {α β : Type} [DecidableEq α] (m : List (α × β)) (k : α) (v : β)
    (hnd : (m.map Prod.fst).Nodup) : ((mapSet m k v).map Prod.fst).Nodup := by
  by_cases hh : mapHas m k = true
  · rw [show mapSet m k v = m.map (fun p => if p.1 = k then (k, v) else p) from by
      simp [mapSet, hh]]
    rw [replace_keys]
    exact hnd
  · have hh' : mapHas m k = false := by
      cases hx : mapHas m k
      · rfl
      · exact absurd hx hh
    have hnone : mapGet m k = none := by
      rw [mapHas_eq_isSome] at hh'
      cases hg : mapGet m k
      · rfl
      · rw [hg] at hh'; simp at hh'
    have hk : k ∉ m.map Prod.fst := (mapGet_eq_none_iff m k).mp hnone
    simp [mapSet, hh', List.nodup_append, hnd, hk]

theorem mem_mapSet {α β : Type} [DecidableEq α] {m : List (α × β)} {k : α} {v : β}
    {q : α × β} (h : q ∈ mapSet m k v) : q = (k, v) ∨ q ∈ m := by
  by_cases hh : mapHas m k = true
  · simp only [mapSet, hh, if_true] at h
    rcases List.mem_map.mp h with ⟨p, hp, he⟩
    by_cases hpk : p.1 = k
    · rw [if_pos hpk] at he
      exact Or.inl he.symm
    · rw [if_neg hpk] at he
      exact Or.inr (he ▸ hp)
  · have hh' : mapHas m k = false := by
      cases hx : mapHas m k
      · rfl
      · exact absurd hx hh
    simp only [mapSet, hh', Bool.false_eq_true, if_false] at h
    rcases List.mem_append.mp h with h1 | h1
    · exact Or.inr h1
    · simp at h1
      exact Or.inl h1

theorem mapGet_delete_self {α β : Type} [DecidableEq α] (m : List (α × β)) (k : α) :
    mapGet (mapDelete m k) k = none := by
  induction m with
  | nil => rfl
  | cons p rest ih =>
      by_cases h : p.1 = k
      · simpa [mapDelete, List.filter_cons, h] using ih
      · simpa [mapDelete, List.filter_cons, mapGet, h] using ih

theorem mapGet_delete_ne {α β : Type} [DecidableEq α] (m : List (α × β)) (k k' : α)
    (hne : k' ≠ k) :
    mapGet (mapDelete m k) k' = mapGet m k' := by
  induction m with
  | nil => rfl
  | cons p rest ih =>
      cases p with
      | mk a b =>
        by_cases h : a = k
        · subst h
          have h2 : ¬(a = k') := fun e => hne e.symm
          simp only [mapDelete] at ih ⊢
          simp only [ne_eq, decide_not] at ih ⊢
          simp [List.filter_cons, mapGet, h2, ih]
        · by_cases h2 : a = k'
          · subst h2
            simp [mapDelete, List.filter_cons, mapGet, h]
          · simp only [mapDelete] at ih ⊢
            simp only [ne_eq, decide_not] at ih ⊢
            simp [List.filter_cons, mapGet, h, h2, ih]

theorem mapDelete_keys_sublist {α β : Type} [DecidableEq α] (m : List (α × β)) (k : α) :
    ((mapDelete m k).map Prod.fst).Sublist (m.map Prod.fst) :=
  (List.filter_sublist m).map Prod.fst

theorem mapHas_false_get_none {α β : Type} [DecidableEq α] {m : List (α × β)} {k : α}
    (h : mapHas m k = false) : mapGet m k = none := by
  rw [mapHas_eq_isSome] at h
  cases hg : mapGet m k
  · rfl
  · rw [hg] at h
    simp at h

/-! ## Lemmas about the admission algorithm -/

theorem tableGet_set (tbl : ConnTable) (ctype : ConnectionType) (inner : InnerTable)
    (t : ConnectionType) (k : String) :
    tableGet (mapSet tbl ctype inner) t k =
      if t = ctype then mapGet inner k else tableGet tbl t k := by
  by_cases ht : t = ctype
  · subst ht
    simp [tableGet, mapGet_set_self]
  · simp [tableGet, mapGet_set_ne tbl ctype t inner ht, ht]

theorem ensureType_tableGet (tbl : ConnTable) (ctype t : ConnectionType) (k : String) :
    tableGet (ensureType tbl ctype) t k = tableGet tbl t k := by
  unfold ensureType
  by_cases hh : mapHas tbl ctype = true
  · simp [hh]
  · have hh' : mapHas tbl ctype = false := by
      cases hx : mapHas tbl ctype
      · rfl
      · exact absurd hx hh
    have hnone : mapGet tbl ctype = none := mapHas_false_get_none hh'
    rw [hh']
    simp only [Bool.false_eq_true, if_false]
    rw [tableGet_set]
    by_cases ht : t = ctype
    · subst ht
      simp [tableGet, hnone, mapGet]
    · simp [ht]

theorem innerOf_get (tbl : ConnTable) (ctype : ConnectionType) (token : String) :
    mapGet (innerOf tbl ctype) token = tableGet tbl ctype token := by
  unfold innerOf ensureType
  by_cases hh : mapHas tbl ctype = true
  · rw [mapHas_eq_isSome] at hh
    cases hg : mapGet tbl ctype with
    | none => rw [hg] at hh; simp at hh
    | some inner =>
        rw [mapHas_eq_isSome, hg]
        simp [tableGet, hg]
  · have hh' : mapHas tbl ctype = false := by
      cases hx : mapHas tbl ctype
      · rfl
      · exact absurd hx hh
    have hnone : mapGet tbl ctype = none := mapHas_false_get_none hh'
    rw [hh']
    simp only [Bool.false_eq_true, if_false]
    simp [mapGet_set_self, tableGet, hnone, mapGet]

theorem innerOf_has (tbl : ConnTable) (ctype : ConnectionType) (token : String) :
    mapHas (innerOf tbl ctype) token = (tableGet tbl ctype token).isSome := by
  rw [mapHas_eq_isSome, innerOf_get]

/-- The reconnection path (lines 362-366): token recognised, reconnection
requested. -/
theorem connectME_reconnect (ctype : ConnectionType) (protocol : Protocol)
    (buffered : List Nat) (tbl : ConnTable) (freshId : Nat) (cid : Nat)
    (hrec : protocol.options.reconnection = true)
    (hget : tableGet tbl ctype protocol.options.reconnectionToken = some cid) :
    connectMgmtOrExt ctype protocol buffered tbl freshId =
      { thrown := none
        connections := ensureType tbl ctype
        effects := [ServerEffect.sendMessage (okMessage ctype),
          ServerEffect.readEntireBuffer, ServerEffect.protocolDispose,
          ServerEffect.reconnectCall cid (ReconnectArg.protocolWrapper protocol) buffered]
        created := false } := by
  have hi : mapGet (innerOf tbl ctype) protocol.options.reconnectionToken = some cid := by
    rw [innerOf_get]
    exact hget
  have hhas : mapHas (innerOf tbl ctype) protocol.options.reconnectionToken = true := by
    rw [mapHas_eq_isSome, hi]
    rfl
  simp [connectMgmtOrExt, hrec, hhas, hi]

/-- The unrecognized-token failure (lines 369-373, reconnection true). -/
theorem connectME_unrecognized (ctype : ConnectionType) (protocol : Protocol)
    (buffered : List Nat) (tbl : ConnTable) (freshId : Nat)
    (hrec : protocol.options.reconnection = true)
    (hget : tableGet tbl ctype protocol.options.reconnectionToken = none) :
    connectMgmtOrExt ctype protocol buffered tbl freshId =
      { thrown := some ("Unrecognized reconnection token")
        connections := ensureType tbl ctype
        effects := []
        created := false } := by
  have hhas : mapHas (innerOf tbl ctype) protocol.options.reconnectionToken = false := by
    rw [mapHas_eq_isSome, innerOf_get, hget]
    rfl
  simp [connectMgmtOrExt, hrec, hhas]

/-- The duplicate-token failure (lines 369-373, reconnection false). -/
theorem connectME_duplicate (ctype : ConnectionType) (protocol : Protocol)
    (buffered : List Nat) (tbl : ConnTable) (freshId : Nat) (cid : Nat)
    (hrec : protocol.options.reconnection = false)
    (hget : tableGet tbl ctype protocol.options.reconnectionToken = some cid) :
    connectMgmtOrExt ctype protocol buffered tbl freshId =
      { thrown := some ("Duplicate reconnection token")
        connections := ensureType tbl ctype
        effects := []
        created := false } := by
  have hhas : mapHas (innerOf tbl ctype) protocol.options.reconnectionToken = true := by
    rw [mapHas_eq_isSome, innerOf_get, hget]
    rfl
  simp [connectMgmtOrExt, hrec, hhas]

/-- The new-connection path (lines 376-393). -/
theorem connectME_new (ctype : ConnectionType) (protocol : Protocol)
    (buffered : List Nat) (tbl : ConnTable) (freshId : Nat)
    (hrec : protocol.options.reconnection = false)
    (hget : tableGet tbl ctype protocol.options.reconnectionToken = none) :
    connectMgmtOrExt ctype protocol buffered tbl freshId =
      { thrown := none
        connections := mapSet (ensureType tbl ctype) ctype
          (mapSet (innerOf tbl ctype) protocol.options.reconnectionToken freshId)
        effects := [ServerEffect.sendMessage (okMessage ctype)] ++
          (if ctype = ConnectionType.Management then
            [ServerEffect.newManagementConnection freshId,
             ServerEffect.fireClientConnect freshId]
          else [ServerEffect.newExtensionHostConnection freshId]) ++
          [ServerEffect.registerCloseHandler ctype protocol.options.reconnectionToken]
        created := true } := by
  have hhas : mapHas (innerOf tbl ctype) protocol.options.reconnectionToken = false := by
    rw [mapHas_eq_isSome, innerOf_get, hget]
    rfl
  simp [connectMgmtOrExt, hrec, hhas]

theorem connect_eq_me (ctype : ConnectionType) (protocol : Protocol)
    (buffered : List Nat) (tbl : ConnTable) (freshId : Nat)
    (h : ctype = ConnectionType.Management ∨ ctype = ConnectionType.ExtensionHost) :
    connect ⟨ctype⟩ protocol buffered tbl freshId =
      connectMgmtOrExt ctype protocol buffered tbl freshId := by
  rcases h with h | h <;> subst h <;> rfl

/-- Lookups in the table produced by the new-connection path. -/
theorem tableGet_insert (tbl : ConnTable) (ctype : ConnectionType) (token : String)
    (freshId : Nat) (t : ConnectionType) (k : String) :
    tableGet (mapSet (ensureType tbl ctype) ctype (mapSet (innerOf tbl ctype) token freshId)) t k =
      if t = ctype ∧ k = token then some freshId else tableGet tbl t k := by
  rw [tableGet_set]
  by_cases ht : t = ctype
  · subst ht
    by_cases hk : k = token
    · subst hk
      simp [mapGet_set_self]
    · rw [mapGet_set_ne _ _ _ _ hk, innerOf_get]
      simp [hk]
  · simp [ht]
    exact ensureType_tableGet tbl ctype t k

theorem eq_false_of_ne_true {b : Bool} (h : ¬b = true) : b = false := by
  cases hx : b
  · rfl
  · exact absurd hx h

theorem tableWF_ensureType {tbl : ConnTable} (ctype : ConnectionType) (h : tableWF tbl) :
    tableWF (ensureType tbl ctype) := by
  unfold ensureType
  by_cases hh : mapHas tbl ctype = true
  · simpa [hh] using h
  · rw [eq_false_of_ne_true hh]
    simp only [Bool.false_eq_true, if_false]
    refine ⟨mapSet_keys_nodup tbl ctype [] h.1, ?_⟩
    intro p hp
    rcases mem_mapSet hp with he | hm
    · rw [he]
      simp
    · exact h.2 p hm

theorem innerOf_keys_nodup {tbl : ConnTable} (ctype : ConnectionType) (h : tableWF tbl) :
    ((innerOf tbl ctype).map Prod.fst).Nodup := by
  have h1 := tableWF_ensureType ctype h
  unfold innerOf
  cases hg : mapGet (ensureType tbl ctype) ctype with
  | none => simp
  | some inner =>
      have h2 := h1.2 (ctype, inner) (mapGet_mem hg)
      simpa using h2

theorem tableWF_insert {tbl : ConnTable} (ctype : ConnectionType) (token : String)
    (freshId : Nat) (h : tableWF tbl) :
    tableWF (mapSet (ensureType tbl ctype) ctype
      (mapSet (innerOf tbl ctype) token freshId)) := by
  have h1 := tableWF_ensureType ctype h
  refine ⟨mapSet_keys_nodup _ _ _ h1.1, ?_⟩
  intro p hp
  rcases mem_mapSet hp with he | hm
  · rw [he]
    exact mapSet_keys_nodup _ _ _ (innerOf_keys_nodup ctype h)
  · exact h1.2 p hm

theorem connectME_tableWF (ctype : ConnectionType) (protocol : Protocol)
    (buffered : List Nat) (tbl : ConnTable) (freshId : Nat) (h : tableWF tbl) :
    tableWF (connectMgmtOrExt ctype protocol buffered tbl freshId).connections := by
  by_cases hrec : protocol.options.reconnection = true
  · cases hget : tableGet tbl ctype protocol.options.reconnectionToken with
    | none =>
        rw [connectME_unrecognized ctype protocol buffered tbl freshId hrec hget]
        exact tableWF_ensureType ctype h
    | some cid =>
        rw [connectME_reconnect ctype protocol buffered tbl freshId cid hrec hget]
        exact tableWF_ensureType ctype h
  · have hrec' := eq_false_of_ne_true hrec
    cases hget : tableGet tbl ctype protocol.options.reconnectionToken with
    | none =>
        rw [connectME_new ctype protocol buffered tbl freshId hrec' hget]
        exact tableWF_insert ctype _ freshId h
    | some cid =>
        rw [connectME_duplicate ctype protocol buffered tbl freshId cid hrec' hget]
        exact tableWF_ensureType ctype h

theorem connect_tableWF (message : ConnectionTypeRequest) (protocol : Protocol)
    (buffered : List Nat) (tbl : ConnTable) (freshId : Nat) (h : tableWF tbl) :
    tableWF (connect message protocol buffered tbl freshId).connections := by
  cases message with
  | mk ct =>
      cases ct with
      | Management => exact connectME_tableWF ConnectionType.Management protocol buffered tbl freshId h
      | ExtensionHost => exact connectME_tableWF ConnectionType.ExtensionHost protocol buffered tbl freshId h
      | Tunnel => exact h

theorem connectME_tableGet_some (ctype : ConnectionType) (protocol : Protocol)
    (buffered : List Nat) (tbl : ConnTable) (freshId : Nat)
    (t : ConnectionType) (k : String) (c : Nat) (hc : tableGet tbl t k = some c) :
    tableGet (connectMgmtOrExt ctype protocol buffered tbl freshId).connections t k = some c := by
  by_cases hrec : protocol.options.reconnection = true
  · cases hget : tableGet tbl ctype protocol.options.reconnectionToken with
    | none =>
        rw [connectME_unrecognized ctype protocol buffered tbl freshId hrec hget]
        show tableGet (ensureType tbl ctype) t k = some c
        rw [ensureType_tableGet]
        exact hc
    | some cid =>
        rw [connectME_reconnect ctype protocol buffered tbl freshId cid hrec hget]
        show tableGet (ensureType tbl ctype) t k = some c
        rw [ensureType_tableGet]
        exact hc
  · have hrec' := eq_false_of_ne_true hrec
    cases hget : tableGet tbl ctype protocol.options.reconnectionToken with
    | none =>
        rw [connectME_new ctype protocol buffered tbl freshId hrec' hget]
        show tableGet (mapSet (ensureType tbl ctype) ctype
          (mapSet (innerOf tbl ctype) protocol.options.reconnectionToken freshId)) t k = some c
        rw [tableGet_insert]
        by_cases hif : t = ctype ∧ k = protocol.options.reconnectionToken
        · rcases hif with ⟨h3, h4⟩
          subst h3
          subst h4
          rw [hget] at hc
          cases hc
        · simp only [hif, if_false]
          exact hc
    | some cid =>
        rw [connectME_duplicate ctype protocol buffered tbl freshId cid hrec' hget]
        show tableGet (ensureType tbl ctype) t k = some c
        rw [ensureType_tableGet]
        exact hc

theorem connect_tableGet_some (message : ConnectionTypeRequest) (protocol : Protocol)
    (buffered : List Nat) (tbl : ConnTable) (freshId : Nat)
    (t : ConnectionType) (k : String) (c : Nat) (hc : tableGet tbl t k = some c) :
    tableGet (connect message protocol buffered tbl freshId).connections t k = some c := by
  cases message with
  | mk ct =>
      cases ct with
      | Management =>
          exact connectME_tableGet_some ConnectionType.Management protocol buffered tbl freshId t k c hc
      | ExtensionHost =>
          exact connectME_tableGet_some ConnectionType.ExtensionHost protocol buffered tbl freshId t k c hc
      | Tunnel => exact hc

theorem step_closeFired_none {s : ServerState} {ctype : ConnectionType} {token : String}
    (hg : mapGet s.connTable ctype = none) :
    s.step (ServerEvent.closeFired ctype token) = (s, []) := by
  simp [ServerState.step, hg]

theorem step_closeFired_some {s : ServerState} {ctype : ConnectionType} {token : String}
    {inner : InnerTable} (hg : mapGet s.connTable ctype = some inner) :
    s.step (ServerEvent.closeFired ctype token) =
      ({ s with connTable := mapSet s.connTable ctype (mapDelete inner token) }, []) := by
  simp [ServerState.step, hg]

theorem step_tableWF (s : ServerState) (ev : ServerEvent) (h : tableWF s.connTable) :
    tableWF ((s.step ev).1.connTable) := by
  cases ev with
  | upgrade message protocol buffered =>
      exact connect_tableWF message protocol buffered s.connTable s.freshId h
  | closeFired ctype token =>
      cases hg : mapGet s.connTable ctype with
      | none =>
          rw [step_closeFired_none hg]
          exact h
      | some inner =>
          rw [step_closeFired_some hg]
          refine ⟨mapSet_keys_nodup _ _ _ h.1, ?_⟩
          intro p hp
          rcases mem_mapSet hp with he | hm
          · rw [he]
            exact List.Nodup.sublist (mapDelete_keys_sublist inner token)
              (h.2 (ctype, inner) (mapGet_mem hg))
          · exact h.2 p hm

theorem run_tableWF (evs : List ServerEvent) (s : ServerState) (h : tableWF s.connTable) :
    tableWF ((s.run evs).1.connTable) := by
  induction evs generalizing s with
  | nil => exact h
  | cons e rest ih =>
      rw [ServerState.run]
      exact ih ((s.step e).1) (step_tableWF s e h)

/-! ## Lemmas about the ManagementConnection state machine -/

theorem mgmt_run_cons (c : ManagementConnection) (e : MgmtEvent) (rest : List MgmtEvent) :
    c.run (e :: rest) =
      ((((c.stepEv e).1).run rest).1, (c.stepEv e).2 ++ (((c.stepEv e).1).run rest).2) := rfl

theorem mgmt_dispose_noop (c : ManagementConnection) (hd : c.disposed = true) :
    c.dispose = (c, []) := by
  simp [ManagementConnection.dispose, hd]

theorem mgmt_step_disposed_mono (c : ManagementConnection) (e : MgmtEvent)
    (hd : c.disposed = true) : ((c.stepEv e).1).disposed = true := by
  cases e with
  | timerFire id =>
      by_cases hmem : id ∈ c.pendingTimers <;>
        simp [ManagementConnection.stepEv, ManagementConnection.dispose, hmem, hd]
  | socketClose => simp [ManagementConnection.stepEv, hd]
  | protocolClose => simp [ManagementConnection.stepEv, ManagementConnection.dispose, hd]
  | reconnect sock buffer => simp [ManagementConnection.stepEv, hd]

theorem mgmt_run_disposed_mono (evs : List MgmtEvent) (c : ManagementConnection)
    (hd : c.disposed = true) : ((c.run evs).1).disposed = true := by
  induction evs generalizing c with
  | nil => exact hd
  | cons e rest ih =>
      rw [mgmt_run_cons]
      exact ih _ (mgmt_step_disposed_mono c e hd)

theorem mgmt_run_protocolClose_disposed (evs : List MgmtEvent) (c : ManagementConnection)
    (hmem : MgmtEvent.protocolClose ∈ evs) : ((c.run evs).1).disposed = true := by
  induction evs generalizing c with
  | nil => cases hmem
  | cons e rest ih =>
      rw [mgmt_run_cons]
      rcases List.mem_cons.mp hmem with he | hm
      · subst he
        apply mgmt_run_disposed_mono
        by_cases hd : c.disposed = true
        · simp [ManagementConnection.stepEv, ManagementConnection.dispose, hd]
        · simp [ManagementConnection.stepEv, ManagementConnection.dispose,
            eq_false_of_ne_true hd]
      · exact ih _ hm

theorem mgmt_step_fireCount (c : ManagementConnection) (e : MgmtEvent) :
    ((c.stepEv e).2.count MgmtEffect.fireOnClose) + (if c.disposed then 1 else 0) =
      (if ((c.stepEv e).1).disposed then 1 else 0) := by
  cases e with
  | socketClose => simp [ManagementConnection.stepEv]
  | protocolClose =>
      by_cases hd : c.disposed = true
      · simp [ManagementConnection.stepEv, ManagementConnection.dispose, hd]
      · simp [ManagementConnection.stepEv, ManagementConnection.dispose,
          eq_false_of_ne_true hd]
  | timerFire id =>
      by_cases hmem : id ∈ c.pendingTimers
      · by_cases hd : c.disposed = true
        · simp [ManagementConnection.stepEv, ManagementConnection.dispose, hmem, hd]
        · simp [ManagementConnection.stepEv, ManagementConnection.dispose, hmem,
            eq_false_of_ne_true hd]
      · simp [ManagementConnection.stepEv, hmem]
  | reconnect sock buffer => simp [ManagementConnection.stepEv]

theorem mgmt_step_discCount (c : ManagementConnection) (e : MgmtEvent) :
    ((c.stepEv e).2.count MgmtEffect.sendDisconnect) + (if c.disposed then 1 else 0) =
      (if ((c.stepEv e).1).disposed then 1 else 0) := by
  cases e with
  | socketClose => simp [ManagementConnection.stepEv]
  | protocolClose =>
      by_cases hd : c.disposed = true
      · simp [ManagementConnection.stepEv, ManagementConnection.dispose, hd]
      · simp [ManagementConnection.stepEv, ManagementConnection.dispose,
          eq_false_of_ne_true hd]
  | timerFire id =>
      by_cases hmem : id ∈ c.pendingTimers
      · by_cases hd : c.disposed = true
        · simp [ManagementConnection.stepEv, ManagementConnection.dispose, hmem, hd]
        · simp [ManagementConnection.stepEv, ManagementConnection.dispose, hmem,
            eq_false_of_ne_true hd]
      · simp [ManagementConnection.stepEv, hmem]
  | reconnect sock buffer => simp [ManagementConnection.stepEv]

theorem mgmt_run_fireCount (evs : List MgmtEvent) (c : ManagementConnection) :
    ((c.run evs).2.count MgmtEffect.fireOnClose) + (if c.disposed then 1 else 0) =
      (if ((c.run evs).1).disposed then 1 else 0) := by
  induction evs generalizing c with
  | nil => simp [ManagementConnection.run]
  | cons e rest ih =>
      rw [mgmt_run_cons]
      simp only [List.count_append]
      have h1 := mgmt_step_fireCount c e
      have h2 := ih ((c.stepEv e).1)
      omega

theorem mgmt_run_discCount (evs : List MgmtEvent) (c : ManagementConnection) :
    ((c.run evs).2.count MgmtEffect.sendDisconnect) + (if c.disposed then 1 else 0) =
      (if ((c.run evs).1).disposed then 1 else 0) := by
  induction evs generalizing c with
  | nil => simp [ManagementConnection.run]
  | cons e rest ih =>
      rw [mgmt_run_cons]
      simp only [List.count_append]
      have h1 := mgmt_step_discCount c e
      have h2 := ih ((c.stepEv e).1)
      omega

theorem clearPending_inv (c : ManagementConnection) (hinv : mgmtTimerInv c) :
    clearPending c.timeout c.pendingTimers = [] := by
  rcases hinv with h | ⟨t, hp, ht⟩
  · rw [h]
    cases c.timeout <;> simp [clearPending]
  · rw [hp, ht]
    simp [clearPending]

theorem mgmt_step_timerInv (c : ManagementConnection) (e : MgmtEvent)
    (hinv : mgmtTimerInv c)
    (hguard : e = MgmtEvent.socketClose → c.pendingTimers = []) :
    mgmtTimerInv ((c.stepEv e).1) := by
  cases e with
  | socketClose =>
      have hp := hguard rfl
      right
      refine ⟨c.nextTimer, ?_, ?_⟩
      · simp [ManagementConnection.stepEv, hp]
      · simp [ManagementConnection.stepEv]
  | protocolClose =>
      by_cases hd : c.disposed = true
      · rw [show (c.stepEv MgmtEvent.protocolClose).1 = c from by
          simp [ManagementConnection.stepEv, mgmt_dispose_noop c hd]]
        exact hinv
      · left
        simp [ManagementConnection.stepEv, ManagementConnection.dispose,
          eq_false_of_ne_true hd, clearPending_inv c hinv]
  | timerFire id =>
      by_cases hmem : id ∈ c.pendingTimers
      · rcases hinv with h | ⟨t, hp, ht⟩
        · rw [h] at hmem
          cases hmem
        · rw [hp] at hmem
          have hid : id = t := by simpa using hmem
          subst hid
          left
          by_cases hd : c.disposed = true
          · simp [ManagementConnection.stepEv, ManagementConnection.dispose, hmem, hp, hd]
          · simp [ManagementConnection.stepEv, ManagementConnection.dispose, hmem, hp, ht,
              eq_false_of_ne_true hd, clearPending]
      · simp [ManagementConnection.stepEv, hmem]
        exact hinv
  | reconnect sock buffer =>
      left
      simp [ManagementConnection.stepEv, clearPending_inv c hinv]

theorem mgmt_guarded_inv (evs : List MgmtEvent) (c : ManagementConnection)
    (hinv : mgmtTimerInv c) (hg : mgmtGuarded c evs = true) :
    mgmtTimerInv ((c.run evs).1) := by
  induction evs generalizing c with
  | nil => exact hinv
  | cons e rest ih =>
      rw [mgmt_run_cons]
      rw [mgmtGuarded, Bool.and_eq_true] at hg
      refine ih _ (mgmt_step_timerInv c e hinv ?_) hg.2
      intro he
      subst he
      have h1 := hg.1
      simpa [mgmtGuardOK] using h1

/-! ## Lemmas about the ExtensionHostConnection state machine -/

theorem ehc_run_cons (c : ExtensionHostConnection) (e : EHCEvent) (rest : List EHCEvent) :
    c.run (e :: rest) =
      ((((c.stepEv e).1).run rest).1, (c.stepEv e).2 ++ (((c.stepEv e).1).run rest).2) := rfl

theorem ehc_dispose_noop (c : ExtensionHostConnection) (hd : c.disposed = true) :
    c.dispose = (c, []) := by
  simp [ExtensionHostConnection.dispose, hd]

theorem ehc_step_processId (c : ExtensionHostConnection) (e : EHCEvent) :
    ((c.stepEv e).1).processId = c.processId := by
  cases e with
  | procMessage mtype =>
      simp only [ExtensionHostConnection.stepEv]
      split_ifs <;> rfl
  | procError =>
      by_cases hd : c.disposed = true <;>
        simp [ExtensionHostConnection.stepEv, ExtensionHostConnection.dispose, hd]
  | procExit =>
      by_cases hd : c.disposed = true <;>
        simp [ExtensionHostConnection.stepEv, ExtensionHostConnection.dispose, hd]
  | disposeCall =>
      by_cases hd : c.disposed = true <;>
        simp [ExtensionHostConnection.stepEv, ExtensionHostConnection.dispose, hd]
  | socketClose => rfl
  | reconnect sock isNodeSocket buffer => rfl

theorem ehc_run_processId (evs : List EHCEvent) (c : ExtensionHostConnection) :
    ((c.run evs).1).processId = c.processId := by
  induction evs generalizing c with
  | nil => rfl
  | cons e rest ih =>
      rw [ehc_run_cons]
      rw [ih ((c.stepEv e).1), ehc_step_processId]

theorem ehc_step_spawnCount (c : ExtensionHostConnection) (e : EHCEvent) :
    (c.stepEv e).2.countP EHCEffect.isSpawn = 0 := by
  cases e with
  | procMessage mtype =>
      simp only [ExtensionHostConnection.stepEv]
      split_ifs <;>
        simp [ExtensionHostConnection.sendInitMessage, List.countP_cons, EHCEffect.isSpawn]
  | procError =>
      by_cases hd : c.disposed = true <;>
        simp [ExtensionHostConnection.stepEv, ExtensionHostConnection.dispose, hd,
          List.countP_cons, EHCEffect.isSpawn]
  | procExit =>
      by_cases hd : c.disposed = true <;>
        simp [ExtensionHostConnection.stepEv, ExtensionHostConnection.dispose, hd,
          List.countP_cons, EHCEffect.isSpawn]
  | disposeCall =>
      by_cases hd : c.disposed = true <;>
        simp [ExtensionHostConnection.stepEv, ExtensionHostConnection.dispose, hd,
          List.countP_cons, EHCEffect.isSpawn]
  | socketClose => rfl
  | reconnect sock isNodeSocket buffer =>
      simp [ExtensionHostConnection.stepEv, ExtensionHostConnection.sendInitMessage,
        List.countP_cons, EHCEffect.isSpawn]

theorem ehc_run_spawnCount (evs : List EHCEvent) (c : ExtensionHostConnection) :
    (c.run evs).2.countP EHCEffect.isSpawn = 0 := by
  induction evs generalizing c with
  | nil => rfl
  | cons e rest ih =>
      rw [ehc_run_cons]
      simp only [List.countP_append]
      rw [ehc_step_spawnCount, ih ((c.stepEv e).1)]

theorem ehc_step_killCount (c : ExtensionHostConnection) (e : EHCEvent) :
    ((c.stepEv e).2.countP EHCEffect.isKill) + (if c.disposed then 1 else 0) =
      (if ((c.stepEv e).1).disposed then 1 else 0) := by
  cases e with
  | procMessage mtype =>
      simp only [ExtensionHostConnection.stepEv]
      split_ifs with h1 <;>
        simp [ExtensionHostConnection.sendInitMessage, List.countP_cons, EHCEffect.isKill]
  | procError =>
      by_cases hd : c.disposed = true
      · simp [ExtensionHostConnection.stepEv, ExtensionHostConnection.dispose, hd]
      · simp [ExtensionHostConnection.stepEv, ExtensionHostConnection.dispose,
          eq_false_of_ne_true hd, List.countP_cons, EHCEffect.isKill]
  | procExit =>
      by_cases hd : c.disposed = true
      · simp [ExtensionHostConnection.stepEv, ExtensionHostConnection.dispose, hd]
      · simp [ExtensionHostConnection.stepEv, ExtensionHostConnection.dispose,
          eq_false_of_ne_true hd, List.countP_cons, EHCEffect.isKill]
  | disposeCall =>
      by_cases hd : c.disposed = true
      · simp [ExtensionHostConnection.stepEv, ExtensionHostConnection.dispose, hd]
      · simp [ExtensionHostConnection.stepEv, ExtensionHostConnection.dispose,
          eq_false_of_ne_true hd, List.countP_cons, EHCEffect.isKill]
  | socketClose => simp [ExtensionHostConnection.stepEv]
  | reconnect sock isNodeSocket buffer =>
      simp [ExtensionHostConnection.stepEv, ExtensionHostConnection.sendInitMessage,
        List.countP_cons, EHCEffect.isKill]

theorem ehc_run_killCount (evs : List EHCEvent) (c : ExtensionHostConnection) :
    ((c.run evs).2.countP EHCEffect.isKill) + (if c.disposed then 1 else 0) =
      (if ((c.run evs).1).disposed then 1 else 0) := by
  induction evs generalizing c with
  | nil => simp [ExtensionHostConnection.run]
  | cons e rest ih =>
      rw [ehc_run_cons]
      simp only [List.countP_append]
      have h1 := ehc_step_killCount c e
      have h2 := ih ((c.stepEv e).1)
      omega

theorem ehc_step_fireCount (c : ExtensionHostConnection) (e : EHCEvent) :
    ((c.stepEv e).2.count EHCEffect.fireOnClose) + (if c.disposed then 1 else 0) =
      (if ((c.stepEv e).1).disposed then 1 else 0) := by
  cases e with
  | procMessage mtype =>
      simp only [ExtensionHostConnection.stepEv]
      split_ifs with h1 <;>
        simp [ExtensionHostConnection.sendInitMessage, List.count_cons]
  | procError =>
      by_cases hd : c.disposed = true
      · simp [ExtensionHostConnection.stepEv, ExtensionHostConnection.dispose, hd]
      · simp [ExtensionHostConnection.stepEv, ExtensionHostConnection.dispose,
          eq_false_of_ne_true hd, List.count_cons]
  | procExit =>
      by_cases hd : c.disposed = true
      · simp [ExtensionHostConnection.stepEv, ExtensionHostConnection.dispose, hd]
      · simp [ExtensionHostConnection.stepEv, ExtensionHostConnection.dispose,
          eq_false_of_ne_true hd, List.count_cons]
  | disposeCall =>
      by_cases hd : c.disposed = true
      · simp [ExtensionHostConnection.stepEv, ExtensionHostConnection.dispose, hd]
      · simp [ExtensionHostConnection.stepEv, ExtensionHostConnection.dispose,
          eq_false_of_ne_true hd, List.count_cons]
  | socketClose => simp [ExtensionHostConnection.stepEv]
  | reconnect sock isNodeSocket buffer =>
      simp [ExtensionHostConnection.stepEv, ExtensionHostConnection.sendInitMessage,
        List.count_cons]

theorem ehc_run_fireCount (evs : List EHCEvent) (c : ExtensionHostConnection) :
    ((c.run evs).2.count EHCEffect.fireOnClose) + (if c.disposed then 1 else 0) =
      (if ((c.run evs).1).disposed then 1 else 0) := by
  induction evs generalizing c with
  | nil => simp [ExtensionHostConnection.run]
  | cons e rest ih =>
      rw [ehc_run_cons]
      simp only [List.count_append]
      have h1 := ehc_step_fireCount c e
      have h2 := ih ((c.stepEv e).1)
      omega

theorem ehc_step_disposed_nontrigger (c : ExtensionHostConnection) (e : EHCEvent)
    (he : e.isDisposeTrigger = false) : ((c.stepEv e).1).disposed = c.disposed := by
  cases e with
  | procMessage mtype =>
      simp only [ExtensionHostConnection.stepEv]
      split_ifs <;> rfl
  | procError => cases he
  | procExit => cases he
  | disposeCall => cases he
  | socketClose => rfl
  | reconnect sock isNodeSocket buffer => rfl

theorem ehc_run_disposed_nontrigger (evs : List EHCEvent) (c : ExtensionHostConnection)
    (h : ∀ e ∈ evs, e.isDisposeTrigger = false) :
    ((c.run evs).1).disposed = c.disposed := by
  induction evs generalizing c with
  | nil => rfl
  | cons e rest ih =>
      rw [ehc_run_cons]
      rw [ih ((c.stepEv e).1) (fun x hx => h x (List.mem_cons_of_mem e hx)),
        ehc_step_disposed_nontrigger c e (h e (List.mem_cons_self e rest))]

theorem ehc_step_disposed_mono (c : ExtensionHostConnection) (e : EHCEvent)
    (hd : c.disposed = true) : ((c.stepEv e).1).disposed = true := by
  cases e with
  | procMessage mtype =>
      simp only [ExtensionHostConnection.stepEv]
      split_ifs <;> simp [hd]
  | procError => simp [ExtensionHostConnection.stepEv, ExtensionHostConnection.dispose, hd]
  | procExit => simp [ExtensionHostConnection.stepEv, ExtensionHostConnection.dispose, hd]
  | disposeCall => simp [ExtensionHostConnection.stepEv, ExtensionHostConnection.dispose, hd]
  | socketClose => exact hd
  | reconnect sock isNodeSocket buffer => exact hd

theorem ehc_run_disposed_mono (evs : List EHCEvent) (c : ExtensionHostConnection)
    (hd : c.disposed = true) : ((c.run evs).1).disposed = true := by
  induction evs generalizing c with
  | nil => exact hd
  | cons e rest ih =>
      rw [ehc_run_cons]
      exact ih _ (ehc_step_disposed_mono c e hd)

theorem ehc_step_trigger_disposed (c : ExtensionHostConnection) (e : EHCEvent)
    (he : e.isDisposeTrigger = true) : ((c.stepEv e).1).disposed = true := by
  cases e with
  | procMessage mtype => cases he
  | socketClose => cases he
  | reconnect sock isNodeSocket buffer => cases he
  | procError =>
      by_cases hd : c.disposed = true
      · simp [ExtensionHostConnection.stepEv, ExtensionHostConnection.dispose, hd]
      · simp [ExtensionHostConnection.stepEv, ExtensionHostConnection.dispose,
          eq_false_of_ne_true hd]
  | procExit =>
      by_cases hd : c.disposed = true
      · simp [ExtensionHostConnection.stepEv, ExtensionHostConnection.dispose, hd]
      · simp [ExtensionHostConnection.stepEv, ExtensionHostConnection.dispose,
          eq_false_of_ne_true hd]
  | disposeCall =>
      by_cases hd : c.disposed = true
      · simp [ExtensionHostConnection.stepEv, ExtensionHostConnection.dispose, hd]
      · simp [ExtensionHostConnection.stepEv, ExtensionHostConnection.dispose,
          eq_false_of_ne_true hd]

theorem ehc_run_trigger_disposed (evs : List EHCEvent) (c : ExtensionHostConnection)
    (h : ∃ e ∈ evs, e.isDisposeTrigger = true) : ((c.run evs).1).disposed = true := by
  induction evs generalizing c with
  | nil => rcases h with ⟨e, he, _⟩; cases he
  | cons e rest ih =>
      rw [ehc_run_cons]
      rcases h with ⟨x, hx, ht⟩
      rcases List.mem_cons.mp hx with he | hm
      · subst he
        exact ehc_run_disposed_mono rest _ (ehc_step_trigger_disposed c x ht)
      · exact ih _ ⟨x, hm, ht⟩

/-! ## Claim theorems -/

/-- C1: for a Management or ExtensionHost admission attempt, if
`reconnection` is set and no Connection is stored under `(type, token)`
the attempt throws "Unrecognized reconnection token"; if `reconnection`
is not set and a Connection is stored under `(type, token)` it throws
"Duplicate reconnection token".  In both failure cases every `(type,
token)` entry of the Connection Table reads as before and no effect is
performed, so the existing Connection (if any) is untouched. -/
theorem admission_failure_paths (ctype : ConnectionType) (protocol : Protocol)
    (buffered : List Nat) (tbl : ConnTable) (freshId : Nat)
    (hct : ctype = ConnectionType.Management ∨ ctype = ConnectionType.ExtensionHost) :
    (protocol.options.reconnection = true →
      tableGet tbl ctype protocol.options.reconnectionToken = none →
      (connect ⟨ctype⟩ protocol buffered tbl freshId).thrown =
          some ("Unrecognized reconnection token") ∧
        (∀ t k, tableGet (connect ⟨ctype⟩ protocol buffered tbl freshId).connections t k =
          tableGet tbl t k) ∧
        (connect ⟨ctype⟩ protocol buffered tbl freshId).effects = []) ∧
    (protocol.options.reconnection = false →
      ∀ cid : Nat, tableGet tbl ctype protocol.options.reconnectionToken = some cid →
      (connect ⟨ctype⟩ protocol buffered tbl freshId).thrown =
          some ("Duplicate reconnection token") ∧
        (∀ t k, tableGet (connect ⟨ctype⟩ protocol buffered tbl freshId).connections t k =
          tableGet tbl t k) ∧
        (connect ⟨ctype⟩ protocol buffered tbl freshId).effects = []) := by
  constructor
  · intro hrec hget
    rw [connect_eq_me ctype protocol buffered tbl freshId hct,
        connectME_unrecognized ctype protocol buffered tbl freshId hrec hget]
    exact ⟨rfl, fun t k => ensureType_tableGet tbl ctype t k, rfl⟩
  · intro hrec cid hget
    rw [connect_eq_me ctype protocol buffered tbl freshId hct,
        connectME_duplicate ctype protocol buffered tbl freshId cid hrec hget]
    exact ⟨rfl, fun t k => ensureType_tableGet tbl ctype t k, rfl⟩

theorem admission_failure_paths_witness :
    (connect ⟨ConnectionType.Management⟩ (mkProtocol 1 ("a") true false)
        [] [] 0).thrown = some ("Unrecognized reconnection token") ∧
    (connect ⟨ConnectionType.Management⟩ (mkProtocol 1 ("a") false false)
        [] [(ConnectionType.Management, [(("a"), 5)])] 0).thrown =
      some ("Duplicate reconnection token") := by
  constructor
  · exact ((admission_failure_paths ConnectionType.Management
      (mkProtocol 1 ("a") true false) [] [] 0 (Or.inl rfl)).1 rfl (by decide)).1
  · exact ((admission_failure_paths ConnectionType.Management
      (mkProtocol 1 ("a") false false) []
      [(ConnectionType.Management, [(("a"), 5)])] 0 (Or.inl rfl)).2 rfl 5 (by decide)).1

/-- C2: the Connection Table keeps tokens unique within a connection type
in every reachable server state; a non-reconnecting successful admission
inserts the new Connection under `(type, token)` and registers a close
handler for exactly that pair; admissions never change any other entry and
never remove or replace an existing entry; only the close handler firing
deletes an entry, and it deletes exactly its own `(type, token)`. -/
theorem connection_table_lifecycle :
    (∀ evs : List ServerEvent, tableWF ((serverStart.run evs).1.connTable)) ∧
    (∀ (ctype : ConnectionType) (protocol : Protocol) (buffered : List Nat)
        (tbl : ConnTable) (freshId : Nat),
      (ctype = ConnectionType.Management ∨ ctype = ConnectionType.ExtensionHost) →
      protocol.options.reconnection = false →
      tableGet tbl ctype protocol.options.reconnectionToken = none →
      tableGet (connect ⟨ctype⟩ protocol buffered tbl freshId).connections ctype
          protocol.options.reconnectionToken = some freshId ∧
        ServerEffect.registerCloseHandler ctype protocol.options.reconnectionToken ∈
          (connect ⟨ctype⟩ protocol buffered tbl freshId).effects ∧
        (connect ⟨ctype⟩ protocol buffered tbl freshId).created = true ∧
        (∀ t k, ¬(t = ctype ∧ k = protocol.options.reconnectionToken) →
          tableGet (connect ⟨ctype⟩ protocol buffered tbl freshId).connections t k =
            tableGet tbl t k)) ∧
    (∀ (ctype : ConnectionType) (protocol : Protocol) (buffered : List Nat)
        (tbl : ConnTable) (freshId : Nat),
      (ctype = ConnectionType.Management ∨ ctype = ConnectionType.ExtensionHost) →
      (protocol.options.reconnection = true ∨
        (tableGet tbl ctype protocol.options.reconnectionToken).isSome = true) →
      (connect ⟨ctype⟩ protocol buffered tbl freshId).created = false ∧
        (∀ t k, tableGet (connect ⟨ctype⟩ protocol buffered tbl freshId).connections t k =
          tableGet tbl t k)) ∧
    (∀ (message : ConnectionTypeRequest) (protocol : Protocol) (buffered : List Nat)
        (tbl : ConnTable) (freshId : Nat) (t : ConnectionType) (k : String) (c : Nat),
      tableGet tbl t k = some c →
      tableGet (connect message protocol buffered tbl freshId).connections t k = some c) ∧
    (∀ (s : ServerState) (ctype : ConnectionType) (token : String),
      tableGet ((s.step (ServerEvent.closeFired ctype token)).1.connTable) ctype token = none ∧
      (∀ t k, ¬(t = ctype ∧ k = token) →
        tableGet ((s.step (ServerEvent.closeFired ctype token)).1.connTable) t k =
          tableGet s.connTable t k)) := by
  refine ⟨?_, ?_, ?_, ?_, ?_⟩
  · intro evs
    exact run_tableWF evs serverStart
      ⟨List.nodup_nil, fun p hp => absurd hp (List.not_mem_nil p)⟩
  · intro ctype protocol buffered tbl freshId hct hrec hget
    rw [connect_eq_me ctype protocol buffered tbl freshId hct,
        connectME_new ctype protocol buffered tbl freshId hrec hget]
    refine ⟨?_, ?_, rfl, ?_⟩
    · show tableGet (mapSet (ensureType tbl ctype) ctype
        (mapSet (innerOf tbl ctype) protocol.options.reconnectionToken freshId)) ctype
          protocol.options.reconnectionToken = some freshId
      rw [tableGet_insert]
      simp
    · show ServerEffect.registerCloseHandler ctype protocol.options.reconnectionToken ∈
        [ServerEffect.sendMessage (okMessage ctype)] ++
          (if ctype = ConnectionType.Management then
            [ServerEffect.newManagementConnection freshId,
             ServerEffect.fireClientConnect freshId]
          else [ServerEffect.newExtensionHostConnection freshId]) ++
          [ServerEffect.registerCloseHandler ctype protocol.options.reconnectionToken]
      simp
    · intro t k hne
      show tableGet (mapSet (ensureType tbl ctype) ctype
        (mapSet (innerOf tbl ctype) protocol.options.reconnectionToken freshId)) t k =
          tableGet tbl t k
      rw [tableGet_insert]
      simp [hne]
  · intro ctype protocol buffered tbl freshId hct hcase
    by_cases hrec : protocol.options.reconnection = true
    · cases hget : tableGet tbl ctype protocol.options.reconnectionToken with
      | none =>
          rw [connect_eq_me ctype protocol buffered tbl freshId hct,
              connectME_unrecognized ctype protocol buffered tbl freshId hrec hget]
          exact ⟨rfl, fun t k => ensureType_tableGet tbl ctype t k⟩
      | some cid =>
          rw [connect_eq_me ctype protocol buffered tbl freshId hct,
              connectME_reconnect ctype protocol buffered tbl freshId cid hrec hget]
          exact ⟨rfl, fun t k => ensureType_tableGet tbl ctype t k⟩
    · have hrec' := eq_false_of_ne_true hrec
      cases hget : tableGet tbl ctype protocol.options.reconnectionToken with
      | none =>
          rcases hcase with hc | hc
          · exact absurd hc hrec
          · rw [hget] at hc
            cases hc
      | some cid =>
          rw [connect_eq_me ctype protocol buffered tbl freshId hct,
              connectME_duplicate ctype protocol buffered tbl freshId cid hrec' hget]
          exact ⟨rfl, fun t k => ensureType_tableGet tbl ctype t k⟩
  · intro message protocol buffered tbl freshId t k c hc
    exact connect_tableGet_some message protocol buffered tbl freshId t k c hc
  · intro s ctype token
    cases hg : mapGet s.connTable ctype with
    | none =>
        rw [step_closeFired_none hg]
        refine ⟨?_, fun t k _ => rfl⟩
        show tableGet s.connTable ctype token = none
        simp [tableGet, hg]
    | some inner =>
        rw [step_closeFired_some hg]
        constructor
        · show tableGet (mapSet s.connTable ctype (mapDelete inner token)) ctype token = none
          rw [tableGet_set]
          simp [mapGet_delete_self]
        · intro t k hne
          show tableGet (mapSet s.connTable ctype (mapDelete inner token)) t k =
            tableGet s.connTable t k
          rw [tableGet_set]
          by_cases ht : t = ctype
          · subst ht
            have hk : k ≠ token := fun e => hne ⟨rfl, e⟩
            rw [if_pos rfl, mapGet_delete_ne inner token k hk]
            simp [tableGet, hg]
          · simp [ht]

theorem connection_table_lifecycle_witness :
    tableGet (connect ⟨ConnectionType.Management⟩ (mkProtocol 1 ("a") false false)
        [] [] 0).connections ConnectionType.Management ("a") = some 0 :=
  (connection_table_lifecycle.2.1 ConnectionType.Management
    (mkProtocol 1 ("a") false false) [] [] 0 (Or.inl rfl) rfl (by decide)).1

/-- C3: on the reconnection path the admission code sends the
acknowledgement on the new Protocol, extracts its buffered bytes, disposes
the new Protocol wrapper, leaves the existing Connection in the table and
creates no new Connection — but the first argument it passes to
`existing.reconnect` is the Protocol wrapper object itself, not the raw
socket the wrapper wraps, although `Connection.reconnect` declares that
parameter as a socket. -/
theorem reconnect_passes_protocol_wrapper :
    connect ⟨ConnectionType.Management⟩ (mkProtocol 7 ("tok") true false)
        [1, 2] [(ConnectionType.Management, [(("tok"), 5)])] 9 =
      { thrown := none
        connections := [(ConnectionType.Management, [(("tok"), 5)])]
        effects := [ServerEffect.sendMessage AckMessage.okType,
          ServerEffect.readEntireBuffer, ServerEffect.protocolDispose,
          ServerEffect.reconnectCall 5
            (ReconnectArg.protocolWrapper (mkProtocol 7 ("tok") true false)) [1, 2]]
        created := false } ∧
    ServerEffect.reconnectCall 5 (ReconnectArg.rawSocket 7) [1, 2] ∉
      (connect ⟨ConnectionType.Management⟩ (mkProtocol 7 ("tok") true false)
        [1, 2] [(ConnectionType.Management, [(("tok"), 5)])] 9).effects := by
  constructor
  · decide
  · decide

/-- C9: a Tunnel admission hands the socket to the tunneling primitive and
returns: the Connection Table is returned untouched, the only effect is
the tunnel hand-off, no Connection is created and no token is registered,
so every later lookup reads exactly what it read before. -/
theorem tunnel_bypasses_table (protocol : Protocol) (buffered : List Nat)
    (tbl : ConnTable) (freshId : Nat) :
    connect ⟨ConnectionType.Tunnel⟩ protocol buffered tbl freshId =
      { thrown := none, connections := tbl, effects := [ServerEffect.tunnel],
        created := false } ∧
    (∀ t k, tableGet (connect ⟨ConnectionType.Tunnel⟩ protocol buffered tbl freshId).connections
      t k = tableGet tbl t k) :=
  ⟨rfl, fun _ _ => rfl⟩

/-- C4: the child process spawned at construction is the same across all
later events — reconnects in particular never spawn — and nothing emits a
process kill unless a dispose trigger (explicit dispose call, process
error, or process exit) occurred; a transport-level socket disconnect is
a literal no-op for this connection. -/
theorem ehc_process_lifecycle (protocol : EHCProtocol) (buffer : List Nat) (pid : Nat)
    (evs : List EHCEvent) :
    ((((ExtensionHostConnection.create protocol buffer pid).1).run evs).1).processId = pid ∧
    ((((ExtensionHostConnection.create protocol buffer pid).1).run evs).2).countP
        EHCEffect.isSpawn = 0 ∧
    ((∀ e ∈ evs, e.isDisposeTrigger = false) →
      ((((ExtensionHostConnection.create protocol buffer pid).1).run evs).2).countP
        EHCEffect.isKill = 0) ∧
    (∀ c : ExtensionHostConnection, c.stepEv EHCEvent.socketClose = (c, [])) := by
  refine ⟨?_, ehc_run_spawnCount evs _, ?_, fun c => rfl⟩
  · rw [ehc_run_processId]
    rfl
  · intro h
    have hk := ehc_run_killCount evs ((ExtensionHostConnection.create protocol buffer pid).1)
    have hd := ehc_run_disposed_nontrigger evs
      ((ExtensionHostConnection.create protocol buffer pid).1) h
    rw [hd] at hk
    simpa [ExtensionHostConnection.create] using hk

theorem ehc_process_lifecycle_witness :
    ((((ExtensionHostConnection.create
        { underlyingSocket := 3, socketIsNodeSocket := true } [1] 42).1).run
      [EHCEvent.socketClose,
       EHCEvent.reconnect 4 false [2],
       EHCEvent.procMessage ("VSCODE_EXTHOST_IPC_READY")]).2).countP
      EHCEffect.isKill = 0 :=
  (ehc_process_lifecycle { underlyingSocket := 3, socketIsNodeSocket := true } [1] 42
    [EHCEvent.socketClose, EHCEvent.reconnect 4 false [2],
     EHCEvent.procMessage ("VSCODE_EXTHOST_IPC_READY")]).2.2.1 (by decide)

/-- C5: the ManagementConnection state machine: a socket-close starts the
60-second (60000 ms) grace timer; a pending timer firing on a live
connection disposes it, emitting the disconnect notice, the protocol
release, the socket end and the close event in order; a reconnect call
clears the tracked timer and resumes the protocol on the new socket with
the pending buffer; a protocol-close on a live connection disposes it
immediately, regardless of any pending timer. -/
theorem mgmt_state_machine (c : ManagementConnection) (id sock : Nat) (buffer : List Nat) :
    (c.stepEv MgmtEvent.socketClose =
      ({ c with
          timeout := some c.nextTimer
          pendingTimers := c.pendingTimers ++ [c.nextTimer]
          nextTimer := c.nextTimer + 1 },
       [MgmtEffect.setTimeout c.nextTimer mgmtWait]) ∧ mgmtWait = 60000) ∧
    (c.disposed = false → id ∈ c.pendingTimers →
      c.stepEv (MgmtEvent.timerFire id) =
        ({ c with
            disposed := true
            pendingTimers := clearPending c.timeout (c.pendingTimers.erase id) },
         [MgmtEffect.clearTimeout c.timeout, MgmtEffect.sendDisconnect,
          MgmtEffect.protocolDispose, MgmtEffect.socketEnd, MgmtEffect.fireOnClose])) ∧
    (c.stepEv (MgmtEvent.reconnect sock buffer) =
      ({ c with pendingTimers := clearPending c.timeout c.pendingTimers },
       [MgmtEffect.clearTimeout c.timeout,
        MgmtEffect.beginAcceptReconnection sock buffer,
        MgmtEffect.endAcceptReconnection])) ∧
    (c.disposed = false →
      c.stepEv MgmtEvent.protocolClose =
        ({ c with
            disposed := true
            pendingTimers := clearPending c.timeout c.pendingTimers },
         [MgmtEffect.clearTimeout c.timeout, MgmtEffect.sendDisconnect,
          MgmtEffect.protocolDispose, MgmtEffect.socketEnd, MgmtEffect.fireOnClose])) := by
  refine ⟨⟨rfl, rfl⟩, ?_, rfl, ?_⟩
  · intro hd hmem
    simp [ManagementConnection.stepEv, ManagementConnection.dispose, hmem, hd]
  · intro hd
    simp [ManagementConnection.stepEv, ManagementConnection.dispose, hd]

theorem mgmt_state_machine_witness :
    ({ disposed := false, timeout := some 0, pendingTimers := [0],
       nextTimer := 1 } : ManagementConnection).stepEv (MgmtEvent.timerFire 0) =
      ({ disposed := true, timeout := some 0, pendingTimers := [], nextTimer := 1 },
       [MgmtEffect.clearTimeout (some 0), MgmtEffect.sendDisconnect,
        MgmtEffect.protocolDispose, MgmtEffect.socketEnd, MgmtEffect.fireOnClose]) ∧
    mgmtStart.stepEv MgmtEvent.protocolClose =
      ({ disposed := true, timeout := none, pendingTimers := [], nextTimer := 0 },
       [MgmtEffect.clearTimeout none, MgmtEffect.sendDisconnect,
        MgmtEffect.protocolDispose, MgmtEffect.socketEnd, MgmtEffect.fireOnClose]) := by
  refine ⟨?_, ?_⟩
  · have h := (mgmt_state_machine
      { disposed := false, timeout := some 0, pendingTimers := [0], nextTimer := 1 }
      0 0 []).2.1 rfl (by decide)
    rw [h]
    rfl
  · have h := (mgmt_state_machine mgmtStart 0 0 []).2.2.2 rfl
    rw [h]
    rfl

/-- C6: for both connection kinds, over every event sequence from a fresh
connection the close event fires at most once and the per-disposal side
effects (the management disconnect notice, the extension-host process
kill) happen at most once; the close event fires exactly once as soon as
a dispatched dispose trigger is in the sequence, and calling `dispose` on
an already-disposed connection is a no-op. -/
theorem dispose_idempotent :
    (∀ evs : List MgmtEvent,
      (mgmtStart.run evs).2.count MgmtEffect.fireOnClose ≤ 1 ∧
      (mgmtStart.run evs).2.count MgmtEffect.sendDisconnect ≤ 1 ∧
      (MgmtEvent.protocolClose ∈ evs →
        (mgmtStart.run evs).2.count MgmtEffect.fireOnClose = 1)) ∧
    (∀ c : ManagementConnection, c.disposed = true → c.dispose = (c, [])) ∧
    (∀ (protocol : EHCProtocol) (buffer : List Nat) (pid : Nat) (evs : List EHCEvent),
      ((((ExtensionHostConnection.create protocol buffer pid).1).run evs).2).count
          EHCEffect.fireOnClose ≤ 1 ∧
      ((((ExtensionHostConnection.create protocol buffer pid).1).run evs).2).countP
          EHCEffect.isKill ≤ 1 ∧
      ((∃ e ∈ evs, e.isDisposeTrigger = true) →
        ((((ExtensionHostConnection.create protocol buffer pid).1).run evs).2).count
          EHCEffect.fireOnClose = 1)) ∧
    (∀ c : ExtensionHostConnection, c.disposed = true → c.dispose = (c, [])) := by
  have hstart : (if mgmtStart.disposed = true then 1 else 0) = 0 := rfl
  refine ⟨?_, mgmt_dispose_noop, ?_, ehc_dispose_noop⟩
  · intro evs
    have h := mgmt_run_fireCount evs mgmtStart
    have h2 := mgmt_run_discCount evs mgmtStart
    rw [hstart] at h h2
    refine ⟨?_, ?_, ?_⟩
    · by_cases hf : ((mgmtStart.run evs).1).disposed = true
      · rw [if_pos hf] at h
        omega
      · rw [if_neg hf] at h
        omega
    · by_cases hf : ((mgmtStart.run evs).1).disposed = true
      · rw [if_pos hf] at h2
        omega
      · rw [if_neg hf] at h2
        omega
    · intro hmem
      have hd := mgmt_run_protocolClose_disposed evs mgmtStart hmem
      rw [hd, if_pos rfl] at h
      omega
  · intro protocol buffer pid evs
    have hstart2 :
        (if (ExtensionHostConnection.create protocol buffer pid).1.disposed = true
          then 1 else 0) = 0 := rfl
    have h := ehc_run_fireCount evs ((ExtensionHostConnection.create protocol buffer pid).1)
    have h2 := ehc_run_killCount evs ((ExtensionHostConnection.create protocol buffer pid).1)
    rw [hstart2] at h h2
    refine ⟨?_, ?_, ?_⟩
    · by_cases hf :
        ((((ExtensionHostConnection.create protocol buffer pid).1).run evs).1).disposed = true
      · rw [if_pos hf] at h
        omega
      · rw [if_neg hf] at h
        omega
    · by_cases hf :
        ((((ExtensionHostConnection.create protocol buffer pid).1).run evs).1).disposed = true
      · rw [if_pos hf] at h2
        omega
      · rw [if_neg hf] at h2
        omega
    · intro hex
      have hd := ehc_run_trigger_disposed evs
        ((ExtensionHostConnection.create protocol buffer pid).1) hex
      rw [hd, if_pos rfl] at h
      omega

theorem dispose_idempotent_witness :
    (mgmtStart.run [MgmtEvent.protocolClose, MgmtEvent.protocolClose]).2.count
        MgmtEffect.fireOnClose = 1 ∧
    ((((ExtensionHostConnection.create
        { underlyingSocket := 3, socketIsNodeSocket := true } [] 42).1).run
      [EHCEvent.procExit, EHCEvent.procError, EHCEvent.disposeCall]).2).count
        EHCEffect.fireOnClose = 1 := by
  constructor
  · exact (dispose_idempotent.1 [MgmtEvent.protocolClose, MgmtEvent.protocolClose]).2.2
      (by decide)
  · exact (dispose_idempotent.2.2.1 { underlyingSocket := 3, socketIsNodeSocket := true }
      [] 42 [EHCEvent.procExit, EHCEvent.procError, EHCEvent.disposeCall]).2.2
      ⟨EHCEvent.procExit, by decide, rfl⟩

/-- C7 counterexample: two socket-close events with no reconnect in
between leave two pending grace timers — the socket-close handler
overwrites `this.timeout` without clearing the previous timer — so the
claim that every sequence of socket-close and reconnect events keeps at
most one active timer is false. -/
theorem mgmt_two_pending_timers :
    ((mgmtStart.run [MgmtEvent.socketClose, MgmtEvent.socketClose]).1).pendingTimers = [0, 1] ∧
    ¬(((mgmtStart.run [MgmtEvent.socketClose, MgmtEvent.socketClose]).1).pendingTimers.length
      ≤ 1) := by
  constructor
  · rfl
  · decide

/-- C7 (amended): provided a socket-close event only arrives while no
grace timer is pending (the transport delivers one socket-close per
attached socket, and attaching a new socket is a reconnect, which cancels
the timer), at most one grace timer is pending at any instant, and a
reconnect call from such a state always leaves no timer pending. -/
theorem mgmt_single_timer (evs : List MgmtEvent)
    (hg : mgmtGuarded mgmtStart evs = true) :
    (((mgmtStart.run evs).1).pendingTimers).length ≤ 1 ∧
    (∀ sock buffer,
      ((((mgmtStart.run evs).1).stepEv (MgmtEvent.reconnect sock buffer)).1).pendingTimers
        = []) := by
  have hinv := mgmt_guarded_inv evs mgmtStart (Or.inl rfl) hg
  constructor
  · rcases hinv with h | ⟨t, hp, _⟩
    · rw [h]
      decide
    · rw [hp]
      simp
  · intro sock buffer
    simp [ManagementConnection.stepEv, clearPending_inv _ hinv]

theorem mgmt_single_timer_witness :
    ((((mgmtStart.run [MgmtEvent.socketClose]).1).stepEv
      (MgmtEvent.reconnect 2 [9])).1).pendingTimers = [] :=
  (mgmt_single_timer [MgmtEvent.socketClose] (by decide)).2 2 [9]

/-- C8: when the ready listener is attached and the child process sends
VSCODE_EXTHOST_IPC_READY, the connection removes the listener, pauses the
underlying socket, and sends the process exactly one initialization
message `{ type: VSCODE_EXTHOST_IPC_SOCKET, initialDataChunk: base64 of
the admission-time buffer, skipWebSocketFrames: whether the protocol
socket is a NodeSocket }` together with the socket handle; a second ready
message then produces no effect.  The base64 encoder is exercised on a
known vector. -/
theorem ehc_ready_message (protocol : EHCProtocol) (buffer : List Nat) (pid : Nat) :
    ((ExtensionHostConnection.create protocol buffer pid).1).stepEv
        (EHCEvent.procMessage ("VSCODE_EXTHOST_IPC_READY")) =
      ({ disposed := false, protocol := protocol, buffer := buffer, processId := pid,
         readyListenerAttached := false },
       [EHCEffect.removeReadyListener,
        EHCEffect.socketPause protocol.underlyingSocket,
        EHCEffect.sendToProcess
          { type := ("VSCODE_EXTHOST_IPC_SOCKET")
            initialDataChunk := base64Encode buffer
            skipWebSocketFrames := protocol.socketIsNodeSocket }
          protocol.underlyingSocket]) ∧
    (({ disposed := false, protocol := protocol, buffer := buffer, processId := pid,
        readyListenerAttached := false } : ExtensionHostConnection).stepEv
        (EHCEvent.procMessage ("VSCODE_EXTHOST_IPC_READY")) =
      ({ disposed := false, protocol := protocol, buffer := buffer, processId := pid,
         readyListenerAttached := false }, [])) ∧
    base64Encode [77, 97, 110] = ("TWFu") :=
  ⟨rfl, rfl, rfl⟩

/-- C10: a plain HTTP request whose method is not GET is answered with
status 400 and the explanatory message before the URL is parsed or any
resource handler runs. -/
theorem non_get_rejected (method : String)
    (handler : Except JsError (Option Nat × String)) (h : method ≠ ("GET")) :
    serverHandleRequest method handler =
      { status := 400, body := ("Unsupported method ") ++ method,
        parsedUrl := false, handlerInvoked := false } := by
  simp [serverHandleRequest, h, catchClause, HttpCode.BadRequest]

theorem non_get_rejected_witness :
    serverHandleRequest ("POST") (Except.ok (none, (""))) =
      { status := 400, body := ("Unsupported method ") ++ ("POST"),
        parsedUrl := false, handlerInvoked := false } :=
  non_get_rejected ("POST") (Except.ok (none, (""))) (by decide)

end CodeServer
